import Mathlib

set_option maxRecDepth 8000

/-!
Shallow embedding of `stackoverflow_expertise.py` (the StackoverflowUserTypes
pipeline): tag-catalog loading, per-user tag-reputation profiling, expertise
shape classification, answer feature extraction and the per-shape segment
selection.  Machine integers are modelled as `ℤ` (Python integers are
unbounded), reputation shares as `ℚ` (exact rational arithmetic stands in for
the float division of the source; all thresholds are decimal constants), and
fallible lookups as `Option`.  Python's stable `list.sort` is modelled by
`List.insertionSort`, which is a stable sort for the same key order.
-/

/-- `(String × ℤ)` pairs ordered by descending second component: the key
order used by `tags.sort(key=lambda x: -x[1])` and
`sorted(tag_counter.items(), key=lambda x: -x[1])` in the source. -/
def byCountDesc (a b : String × ℤ) : Prop := b.2 ≤ a.2

instance : DecidableRel byCountDesc := fun a b => Int.decLe b.2 a.2

instance : IsTotal (String × ℤ) byCountDesc :=
  ⟨fun a b => le_total b.2 a.2⟩

instance : IsTrans (String × ℤ) byCountDesc :=
  ⟨fun _ _ _ h h' => le_trans h' h⟩

/-- Configuration constant `TOP_N_TAGS = 100`. -/
def TOP_N_TAGS : ℕ := 100

/-- Configuration constant `MIN_REPUTATION = 100`. -/
def MIN_REPUTATION : ℤ := 100

/-- Configuration constant `MIN_CODE_LINES = 5`. -/
def MIN_CODE_LINES : ℕ := 5

/-- Configuration constant `WORD_THRESHOLD_SHORT = 150`. -/
def WORD_THRESHOLD_SHORT : ℕ := 150

/-- Configuration constant `WORD_THRESHOLD_LONG = 400`. -/
def WORD_THRESHOLD_LONG : ℕ := 400

/-- `load_top_tags`: stable-sort the `(TagName, Count)` records by count
descending and keep the first `n` names.  The source reads the records from
`Tags.xml` and uses the global `TOP_N_TAGS`; the record stream and `n` are
parameters here. -/
def load_top_tags (records : List (String × ℤ)) (n : ℕ) : List String :=
  ((records.insertionSort byCountDesc).take n).map Prod.fst

/-- One row of `Users.xml`: attributes `Id` and `Reputation` (both parsed
with `int(...)` in the source). -/
structure UserRow where
  id : ℤ
  reputation : ℤ
deriving DecidableEq, Repr

/-- One row of `Posts.xml`.  Optional fields model XML attributes that may be
absent; the source applies `int(p.get(k, 0))`-style defaults at each use
site, which is modelled by `Option.getD` there. -/
structure PostRow where
  id : ℤ
  postTypeId : Option ℤ
  ownerUserId : Option ℤ
  tags : Option String
  score : Option ℤ
  body : Option String
  acceptedAnswerId : Option ℤ
deriving DecidableEq, Repr

/-- Scanner for `re.findall(r"<([^>]+)>", s)`: each match is a maximal run
of non-`>` characters enclosed between a `<` and the first following `>`;
scanning is left to right and non-overlapping, resuming after each match's
closing `>` (on a failed attempt at a `<`, one character past it).  The
fuel argument only makes the recursion structural: every recursive call is
on a strictly shorter list, so fuel equal to the input length is never
exhausted. -/
def findTagsGo : ℕ → List Char → List String
  | 0, _ => []
  | _ + 1, [] => []
  | fuel + 1, c :: rest =>
    if c = '<' then
      let content := rest.takeWhile (fun ch => ch ≠ '>')
      if 0 < content.length ∧ content.length < rest.length then
        content.asString :: findTagsGo fuel (rest.drop (content.length + 1))
      else
        findTagsGo fuel rest
    else
      findTagsGo fuel rest

/-- Tag extraction `re.findall(r"<([^>]+)>", tags)` on a tag string. -/
def extract_post_tags (s : String) : List String :=
  findTagsGo s.data.length s.data

/-- `m[uid] = rep` on a Python dict modelled as an association list:
the first entry with key `uid` is updated in place, otherwise the pair is
appended (Python dicts keep insertion order). -/
def setRep : List (ℤ × ℤ) → ℤ → ℤ → List (ℤ × ℤ)
  | [], uid, rep => [(uid, rep)]
  | (k, v) :: rest, uid, rep =>
    if k = uid then (k, rep) :: rest else (k, v) :: setRep rest uid rep

/-- Dict lookup `m.get(uid)`: the value of the first entry with key `uid`. -/
def lookupRep : List (ℤ × ℤ) → ℤ → Option ℤ
  | [], _ => none
  | (k, v) :: rest, uid => if k = uid then some v else lookupRep rest uid

/-- Pass 1 of `build_tag_reputation`: `user_rep[uid] = rep` for every user
row with `rep >= MIN_REPUTATION` (the threshold is a parameter here). -/
def buildUserRep (users : List UserRow) (minRep : ℤ) : List (ℤ × ℤ) :=
  users.foldl
    (fun m u => if minRep ≤ u.reputation then setRep m u.id u.reputation else m) []

/-- A `collections.Counter` over tag names, as an insertion-ordered
association list. -/
abbrev TagCounter := List (String × ℤ)

/-- `c[t] += g` on a `Counter`: update the entry for `t` in place, or append
`(t, 0 + g)` when `t` is a new key (the key is created even when `g = 0`). -/
def counterAdd : TagCounter → String → ℤ → TagCounter
  | [], t, g => [(t, g)]
  | (k, v) :: rest, t, g =>
    if k = t then (k, v + g) :: rest else (k, v) :: counterAdd rest t g

/-- `c[t]` on a `Counter`: the stored value, or `0` for an absent key. -/
def counterGet : TagCounter → String → ℤ
  | [], _ => 0
  | (k, v) :: rest, t => if k = t then v else counterGet rest t

/-- The `user_tags` structure: `defaultdict(Counter)` as an
insertion-ordered association list from user id to `TagCounter`. -/
abbrev UserTags := List (ℤ × TagCounter)

/-- `user_tags[uid][t] += g`: update the counter of the first entry for
`uid`, or append a fresh entry (the `defaultdict` creates the counter, and
the key `t` inside it, even when `g = 0`). -/
def addGain : UserTags → ℤ → String → ℤ → UserTags
  | [], uid, t, g => [(uid, counterAdd [] t g)]
  | (k, c) :: rest, uid, t, g =>
    if k = uid then (k, counterAdd c t g) :: rest
    else (k, c) :: addGain rest uid t g

/-- `user_tags[uid]` read-only: the counter stored for `uid`, or the empty
counter when `uid` is not a key. -/
def getCounter : UserTags → ℤ → TagCounter
  | [], _ => []
  | (k, c) :: rest, uid => if k = uid then c else getCounter rest uid

/-- The user ids that are keys of `user_tags`. -/
def userKeys (st : UserTags) : List ℤ :=
  st.map Prod.fst

/-- The tag names that are keys of a `TagCounter`. -/
def counterKeys (c : TagCounter) : List String :=
  c.map Prod.fst

/-- `user_tags[uid][t]` read-only (0 for absent keys). -/
def getGain (st : UserTags) (uid : ℤ) (t : String) : ℤ :=
  counterGet (getCounter st uid) t

/-- The body of the second pass of `build_tag_reputation` for one post row:
skip the post when it has no `OwnerUserId`, when the owner is not in
`user_rep`, when `Tags` is absent or empty, or when no extracted tag is in
the allowlist; otherwise add `rep_gain = max(score * 10, 0)` to the owner's
counter for every surviving tag. -/
def processPost (userRep : List (ℤ × ℤ)) (allow : List String)
    (st : UserTags) (p : PostRow) : UserTags :=
  match p.ownerUserId with
  | none => st
  | some uid =>
    if (lookupRep userRep uid).isSome then
      match p.tags with
      | none => st
      | some s =>
        if s = "" then st
        else
          let post_tags := (extract_post_tags s).filter (fun t => decide (t ∈ allow))
          if post_tags = [] then st
          else
            let rep_gain := max ((p.score.getD 0) * 10) 0
            post_tags.foldl (fun m t => addGain m uid t rep_gain) st
    else st

/-- `build_tag_reputation`: pass 1 builds `user_rep` from the user rows,
pass 2 folds `processPost` over the post rows starting from the empty
`user_tags`. -/
def build_tag_reputation (users : List UserRow) (posts : List PostRow)
    (allow : List String) (minRep : ℤ) : List (ℤ × ℤ) × UserTags :=
  let user_rep := buildUserRep users minRep
  (user_rep, posts.foldl (processPost user_rep allow) [])

/-- `classify_shape(tag_counter)`: `None` for an empty counter or a zero
total; otherwise sort the items by gain descending, form the share vector
`percs`, and return the first matching rule of the priority list
I, T, Pi, Comb, else `None`.  Python's `None` is `none` and the label
strings are kept verbatim. -/
def classify_shape (tag_counter : TagCounter) : Option String :=
  if tag_counter = [] then none
  else
    let items := tag_counter.insertionSort byCountDesc
    let total : ℤ := (tag_counter.map Prod.snd).sum
    if total = 0 then none
    else
      let percs : List ℚ := items.map (fun x => (x.2 : ℚ) / (total : ℚ))
      let p0 := percs.headD 0
      let p1 := percs.getD 1 0
      if 9/10 ≤ p0 then some "I"
      else if 1/2 ≤ p0 ∧ p0 ≤ 7/10 ∧ 11 ≤ items.length then some "T"
      else if 2 ≤ items.length ∧ 3/10 ≤ p0 ∧ p0 ≤ 9/20 ∧ 3/10 ≤ p1 ∧ p1 ≤ 9/20
              ∧ 7/10 ≤ p0 + p1 then some "Pi"
      else if 3 ≤ (percs.take 5).countP (fun q => decide (3/20 ≤ q ∧ q ≤ 1/4))
              ∧ (percs.take 5).countP (fun q => decide (3/20 ≤ q ∧ q ≤ 1/4)) ≤ 5
              ∧ p0 ≤ 3/10 then some "Comb"
      else none

/-- The descending-sorted share vector of a profile: each sorted gain
divided by the total gain (the `percs` list of the source). -/
def shares_of (tag_counter : TagCounter) : List ℚ :=
  let total : ℤ := (tag_counter.map Prod.snd).sum
  (tag_counter.insertionSort byCountDesc).map (fun x => (x.2 : ℚ) / (total : ℚ))

/-- The spec's fixed priority rule list, stated on a descending-sorted
share vector alone (one share per distinct tag, so the number of distinct
tags is the length of the vector): `I` iff the top share is at least 0.90;
else `T` iff the top share lies in [0.50, 0.70] and at least 11 tags are
present; else `Pi` iff there are at least 2 tags, the top two shares each
lie in [0.30, 0.45] and their sum is at least 0.70; else `Comb` iff
between 3 and 5 of the top 5 shares lie in [0.15, 0.25] and the top share
is at most 0.30; else unclassified. -/
def spec_rules (percs : List ℚ) : Option String :=
  let p0 := percs.headD 0
  let p1 := percs.getD 1 0
  if 9/10 ≤ p0 then some "I"
  else if 1/2 ≤ p0 ∧ p0 ≤ 7/10 ∧ 11 ≤ percs.length then some "T"
  else if 2 ≤ percs.length ∧ 3/10 ≤ p0 ∧ p0 ≤ 9/20 ∧ 3/10 ≤ p1 ∧ p1 ≤ 9/20
          ∧ 7/10 ≤ p0 + p1 then some "Pi"
  else if 3 ≤ (percs.take 5).countP (fun q => decide (3/20 ≤ q ∧ q ≤ 1/4))
          ∧ (percs.take 5).countP (fun q => decide (3/20 ≤ q ∧ q ≤ 1/4)) ≤ 5
          ∧ p0 ≤ 3/10 then some "Comb"
  else none

/-- `\w` for the ASCII fragment relevant here: letters, digits and the
underscore. -/
def isWordChar (c : Char) : Bool :=
  c.isAlphanum || c = '_'

/-- Counts the maximal runs of word characters; the flag records whether
the previous character was a word character. -/
def countWordsAux : List Char → Bool → ℕ
  | [], _ => 0
  | c :: rest, inWord =>
    if isWordChar c then
      (if inWord then 0 else 1) + countWordsAux rest true
    else
      countWordsAux rest false

/-- `len(re.findall(r"\w+", body))`: the number of maximal word-character
runs in the body. -/
def word_count (s : String) : ℕ :=
  countWordsAux s.data false

/-- The first occurrence of `delim` in `l`: `some (before, after)` splits
`l` as `before ++ delim ++ after`, taking the earliest occurrence;
`none` when `delim` does not occur. -/
def splitOnFirst (delim : List Char) : List Char → Option (List Char × List Char)
  | [] => none
  | c :: rest =>
    if delim.isPrefixOf (c :: rest) then some ([], (c :: rest).drop delim.length)
    else (splitOnFirst delim rest).map (fun pr => (c :: pr.1, pr.2))

/-- Scanner for `re.findall(r"<code>(.*?)</code>", body, re.DOTALL)`:
at each `<code>` the lazy capture runs to the first following `</code>`
(newlines included); matches are non-overlapping and scanning resumes
after the closing delimiter.  Fuel as in `findTagsGo`. -/
def findCodeGo : ℕ → List Char → List String
  | 0, _ => []
  | _ + 1, [] => []
  | fuel + 1, c :: rest =>
    if "<code>".data.isPrefixOf (c :: rest) then
      match splitOnFirst "</code>".data (rest.drop 5) with
      | some (content, after) => content.asString :: findCodeGo fuel after
      | none => findCodeGo fuel rest
    else
      findCodeGo fuel rest

/-- The captured contents of the body's `<code>…</code>` spans. -/
def code_blocks (body : String) : List String :=
  findCodeGo body.data.length body.data

/-- `len(cb.splitlines())` for newline-delimited text: the number of `\n`
characters, plus one more when the text ends in a segment not terminated
by `\n`; the empty string has no lines. -/
def count_lines (cb : String) : ℕ :=
  let l := cb.data
  if l = [] then 0
  else if l.getLast? = some '\n' then l.count '\n'
  else l.count '\n' + 1

/-- `re.search(r"<img\s", body)`: some position starts with `<img`
followed by a whitespace character. -/
def hasImgMarker : List Char → Bool
  | [] => false
  | c :: rest =>
    (("<img".data.isPrefixOf (c :: rest)) &&
      (match (c :: rest).drop 4 with
       | [] => false
       | d :: _ => d.isWhitespace)) || hasImgMarker rest

/-- Scanner for `re.findall(r'<a href="([^"]+)"', body)`: at each literal
occurrence of `<a href="` the capture is the maximal non-empty run of
non-quote characters, which must be closed by a quote; scanning resumes
after the closing quote.  Fuel as in `findTagsGo`. -/
def findLinksGo : ℕ → List Char → List String
  | 0, _ => []
  | _ + 1, [] => []
  | fuel + 1, c :: rest =>
    if "<a href=\"".data.isPrefixOf (c :: rest) then
      let after := rest.drop 8
      let content := after.takeWhile (fun ch => ch ≠ '"')
      if 0 < content.length ∧ content.length < after.length then
        content.asString :: findLinksGo fuel (after.drop (content.length + 1))
      else
        findLinksGo fuel rest
    else
      findLinksGo fuel rest

/-- The targets of the body's `<a href="…"` hyperlinks. -/
def extract_links (body : String) : List String :=
  findLinksGo body.data.length body.data

/-- `str.startswith(pre)` modelled on the character lists. -/
def startsWithLit (pre s : String) : Bool :=
  pre.data.isPrefixOf s.data

/-- The per-link test of the source: a link counts as external iff it does
not start with `https://stackoverflow.com` and does not start with
`//stackoverflow.com`. -/
def is_external_link (link : String) : Bool :=
  !(startsWithLit "https://stackoverflow.com" link) &&
    !(startsWithLit "//stackoverflow.com" link)

/-- `has_ref` of the source: some extracted link passes
`is_external_link`. -/
def has_external_ref (body : String) : Bool :=
  (extract_links body).any is_external_link

/-- The feature dictionary produced by `answer_features` for a non-empty
body. -/
structure Feats where
  length : String
  has_code : Bool
  has_image : Bool
  has_ref : Bool
  word_count : ℕ
deriving DecidableEq, Repr

/-- The bucket chosen by the conditional expression
`"Long" if words > 400 else ("Summarized" if words < 150 else "Medium")`. -/
def bucket_of (words : ℕ) : String :=
  if words > WORD_THRESHOLD_LONG then "Long"
  else if words < WORD_THRESHOLD_SHORT then "Summarized"
  else "Medium"

/-- `answer_features(body)`: the empty dictionary (modelled `none`) for an
empty body, otherwise the five derived features.  The `Summarized` label
is the source's name for the spec's `Short` bucket. -/
def answer_features (body : String) : Option Feats :=
  if body = "" then none
  else
    let words := word_count body
    some
      { length := bucket_of words
        has_code := (code_blocks body).any (fun cb => MIN_CODE_LINES ≤ count_lines cb)
        has_image := hasImgMarker body.data
        has_ref := has_external_ref body
        word_count := words }

/-- One appended element of `answer_df`: the feature dictionary (empty for
an empty body) together with the five fields added by `feats.update`. -/
structure AnswerRow where
  features : Option Feats
  answer_id : ℤ
  owner_id : ℤ
  shape : String
  upvotes : ℤ
  accepted : Bool
deriving DecidableEq, Repr

/-- Dict lookup in `user_shape`. -/
def lookupShape : List (ℤ × String) → ℤ → Option String
  | [], _ => none
  | (k, v) :: rest, uid => if k = uid then some v else lookupShape rest uid

/-- The answer-extraction loop body for one post row: skip posts whose
`PostTypeId` (default 0) is not 2, with no `OwnerUserId`, or whose owner
has no shape; otherwise append the row, with
`accepted = (AcceptedAnswerId default 0) == Id` read from the row
itself. -/
def answer_row (user_shape : List (ℤ × String)) (p : PostRow) : Option AnswerRow :=
  if p.postTypeId.getD 0 ≠ 2 then none
  else
    match p.ownerUserId with
    | none => none
    | some uid =>
      match lookupShape user_shape uid with
      | none => none
      | some sh =>
        some
          { features := answer_features (p.body.getD "")
            answer_id := p.id
            owner_id := uid
            shape := sh
            upvotes := p.score.getD 0
            accepted := p.acceptedAnswerId.getD 0 = p.id }

/-- The full answer-extraction loop: the rows appended to `answer_df`, in
post-stream order. -/
def extract_answers (user_shape : List (ℤ × String)) (posts : List PostRow) :
    List AnswerRow :=
  posts.filterMap (answer_row user_shape)

/-- `answers["preferred"] = (answers["upvotes"] > 0) | answers["accepted"]`,
per row. -/
def preferred (r : AnswerRow) : Bool :=
  (0 < r.upvotes) || r.accepted

/-- Configuration constant: the minimum segment size 100 of the per-shape
regression loop. -/
def MIN_SEGMENT_SIZE : ℕ := 100

/-- The distinct shape labels of the answer table (the category values of
`answers["shape"]`; only membership matters downstream). -/
def shape_categories (rows : List AnswerRow) : List String :=
  (rows.map (fun r => r.shape)).dedup

/-- The keys of the `results` mapping of the per-shape regression loop:
the loop skips a shape exactly when its row count is below
`min_segment`; the regression fit itself is an external black box and
does not affect which keys appear. -/
def result_shapes (rows : List AnswerRow) (min_segment : ℕ) : List String :=
  (shape_categories rows).filter
    (fun sh => min_segment ≤ (rows.filter (fun r => r.shape == sh)).length)

/-- The host part of a hyperlink target, following the wording of the
spec: defined for absolute (`http://`, `https://`) and scheme-relative
(`//`) targets, as the text between the scheme marker and the next `/`;
relative targets have no host of their own (they point back to the
serving site). -/
def link_host (link : String) : Option String :=
  if startsWithLit "https://" link then
    some (((link.data.drop 8).takeWhile (fun c => c ≠ '/')).asString)
  else if startsWithLit "http://" link then
    some (((link.data.drop 7).takeWhile (fun c => c ≠ '/')).asString)
  else if startsWithLit "//" link then
    some (((link.data.drop 2).takeWhile (fun c => c ≠ '/')).asString)
  else none

/-- The external-link notion that the spec describes, as opposed to the
one the source computes: a link counts as external iff it is an absolute
link (explicit `http://` or `https://` scheme) whose host is not the
site's own domain; scheme-relative or absolute references to the own
domain, and non-absolute links, do not count. -/
def spec_external_link (link : String) : Bool :=
  (startsWithLit "http://" link || startsWithLit "https://" link) &&
    !(link_host link == some "stackoverflow.com")

/-- The spec's `has_external_reference` predicate on a body. -/
def spec_has_external_reference (body : String) : Bool :=
  (extract_links body).any spec_external_link

/-- A post row that is an answer by a classified user but carries no
`Body` attribute. -/
def post_no_body : PostRow :=
  { id := 5, postTypeId := some 2, ownerUserId := some 1, tags := none,
    score := none, body := none, acceptedAnswerId := none }

/-- A post row that is an answer with `Id = 0` and no `AcceptedAnswerId`
attribute. -/
def post_zero_id : PostRow :=
  { id := 0, postTypeId := some 2, ownerUserId := some 1, tags := none,
    score := none, body := none, acceptedAnswerId := none }

/-- An answer-table row of shape `I` used for concrete counting
instances. -/
def sample_row_I : AnswerRow :=
  { features := none, answer_id := 1, owner_id := 1, shape := "I",
    upvotes := 0, accepted := false }

/-- The profiling invariant: every user key of `user_tags` is present in
`user_rep`, and every tag key of any user's counter is in the
allowlist. -/
def profInv (ur : List (ℤ × ℤ)) (allow : List String) (st : UserTags) : Prop :=
  (∀ k ∈ userKeys st, (lookupRep ur k).isSome = true)
  ∧ (∀ k t, t ∈ counterKeys (getCounter st k) → t ∈ allow)

/-- A post by user 1 scoring 3 on the single tag `python`, used in
concrete profiling instances. -/
def post_python : PostRow :=
  { id := 10, postTypeId := none, ownerUserId := some 1, tags := some "<python>",
    score := some 3, body := none, acceptedAnswerId := none }

/-- A body of 500 word characters forming 500 one-letter words. -/
def body_500 : String := ((List.replicate 500 ['a', ' ']).flatten).asString

/-- A body of exactly 150 one-letter words. -/
def body_150 : String := ((List.replicate 150 ['b', ' ']).flatten).asString

/-- Claim C4 fails on the code: at the body
`<a href="http://stackoverflow.com/q">see</a>` the only hyperlink is an
absolute reference to the site's own domain, which the claim excludes
from external references, yet the source counts it as external because
its test only screens out the `https://` and scheme-relative spellings
of the own domain. -/
theorem claim_C4_cex :
    has_external_ref "<a href=\"http://stackoverflow.com/q\">see</a>" = true
    ∧ spec_has_external_reference "<a href=\"http://stackoverflow.com/q\">see</a>" = false := by
  constructor
  · decide
  · decide

/-- Claim C4, amended: `has_external_reference` is true iff the body
contains at least one `<a href="…"` hyperlink whose target does not start
with `https://stackoverflow.com` and does not start with
`//stackoverflow.com`; in particular relative targets and `http://`
references to the own domain also count as external. -/
theorem claim_C4 :
    ∀ body : String,
      has_external_ref body = true ↔
        ∃ link ∈ extract_links body,
          startsWithLit "https://stackoverflow.com" link = false
          ∧ startsWithLit "//stackoverflow.com" link = false := by
  intro body
  simp [has_external_ref, is_external_link, List.any_eq_true]

/-- Claim C5 fails on the code: a post with no `Body` attribute that is an
answer by a classified user is not excluded from the answer table; the
loop still appends its row (with the empty feature dictionary, here
`features = none`, and the provenance and outcome fields). -/
theorem claim_C5_cex :
    extract_answers [(1, "I")] [post_no_body]
      = [{ features := none, answer_id := 5, owner_id := 1, shape := "I",
           upvotes := 0, accepted := false }] := by
  decide

/-- Claim C5, amended: the extractor itself returns the empty result for a
missing or empty body, but the record is not excluded from the answer
table: its row still appears, carrying the empty feature dictionary. -/
theorem claim_C5 :
    answer_features "" = none
    ∧ (∀ us p uid sh, p.postTypeId.getD 0 = 2 → p.ownerUserId = some uid →
        lookupShape us uid = some sh → (p.body = none ∨ p.body = some "") →
        ∃ row, answer_row us p = some row ∧ row.features = none
          ∧ row.answer_id = p.id) := by
  constructor
  · rfl
  · intro us p uid sh htype howner hshape hbody
    have hb : p.body.getD "" = "" := by
      rcases hbody with h | h <;> simp [h]
    refine ⟨⟨answer_features (p.body.getD ""), p.id, uid, sh, p.score.getD 0,
      decide (p.acceptedAnswerId.getD 0 = p.id)⟩, ?_, ?_, rfl⟩
    · simp [answer_row, htype, howner, hshape]
    · simp only [hb, answer_features, if_pos]

/-- Claim C5 witness: the amended statement at the concrete bodyless
answer row `post_no_body` under the shape table `[(1, "I")]`. -/
theorem claim_C5_witness :
    post_no_body.postTypeId.getD 0 = 2
    ∧ post_no_body.ownerUserId = some 1
    ∧ lookupShape [(1, "I")] 1 = some "I"
    ∧ post_no_body.body = none
    ∧ ∃ row, answer_row [(1, "I")] post_no_body = some row
        ∧ row.features = none ∧ row.answer_id = post_no_body.id :=
  ⟨by decide, by decide, by decide, by decide,
    claim_C5.2 [(1, "I")] post_no_body 1 "I" (by decide) (by decide) (by decide)
      (Or.inl (by decide))⟩

/-- Claim C7: the preference label is true iff `upvotes > 0` or
`accepted`; in particular zero upvotes with acceptance is preferred, and
zero or negative upvotes without acceptance is not. -/
theorem claim_C7 :
    (∀ r : AnswerRow, preferred r = true ↔ (0 < r.upvotes ∨ r.accepted = true))
    ∧ preferred { features := none, answer_id := 1, owner_id := 1, shape := "I",
                  upvotes := 0, accepted := true } = true
    ∧ preferred { features := none, answer_id := 1, owner_id := 1, shape := "I",
                  upvotes := 0, accepted := false } = false
    ∧ preferred { features := none, answer_id := 1, owner_id := 1, shape := "I",
                  upvotes := -1, accepted := false } = false := by
  refine ⟨?_, by decide, by decide, by decide⟩
  intro r
  simp [preferred]

/-- Claim C9: a shape present in the answer table is a key of the
regression result mapping iff at least `MIN_SEGMENT_SIZE = 100` rows have
that shape (the fit itself is an external black box and does not affect
key presence); a shape with 99 rows is absent, with 100 present. -/
theorem claim_C9 :
    (∀ rows sh, sh ∈ rows.map (fun r => r.shape) →
      (sh ∈ result_shapes rows MIN_SEGMENT_SIZE ↔
        MIN_SEGMENT_SIZE ≤ (rows.filter (fun r => r.shape == sh)).length))
    ∧ "I" ∉ result_shapes (List.replicate 99 sample_row_I) MIN_SEGMENT_SIZE
    ∧ "I" ∈ result_shapes (List.replicate 100 sample_row_I) MIN_SEGMENT_SIZE := by
  refine ⟨?_, by decide, by decide⟩
  intro rows sh hmem
  simp [result_shapes, shape_categories, List.mem_filter, List.mem_dedup, hmem]

/-- Claim C9 witness: the characterization applied to the one-row table
`[sample_row_I]` at shape `I`: the shape is present in the table and is a
result key iff the table has at least 100 rows of it (here it has 1). -/
theorem claim_C9_witness :
    "I" ∈ [sample_row_I].map (fun r => r.shape)
    ∧ ("I" ∈ result_shapes [sample_row_I] MIN_SEGMENT_SIZE ↔
        MIN_SEGMENT_SIZE ≤ ([sample_row_I].filter (fun r => r.shape == "I")).length) :=
  ⟨by decide, claim_C9.1 [sample_row_I] "I" (by decide)⟩

/-- Claim C10 fails on the code in one corner: an answer row with
`Id = 0` and no `AcceptedAnswerId` attribute is marked accepted, because
the absent attribute defaults to 0, which equals the row's own id. -/
theorem claim_C10_cex :
    (answer_row [(1, "I")] post_zero_id).map (fun r => r.accepted) = some true := by
  decide

/-- Claim C10, amended: for every answer row of the table, `accepted` is
true iff the row's own `AcceptedAnswerId` attribute, defaulting to 0 when
absent, equals the row's own `Id` (acceptance on the parent question row
is never consulted: the row is a function of the answer's own record);
consequently an answer row with nonzero `Id` and no `AcceptedAnswerId`
attribute is never marked accepted. -/
theorem claim_C10 :
    (∀ us p row, answer_row us p = some row →
      (row.accepted = true ↔ p.acceptedAnswerId.getD 0 = p.id))
    ∧ (∀ us p row, answer_row us p = some row → p.acceptedAnswerId = none →
        p.id ≠ 0 → row.accepted = false) := by
  have key : ∀ us p row, answer_row us p = some row →
      row.accepted = decide (p.acceptedAnswerId.getD 0 = p.id) := by
    intro us p row h
    unfold answer_row at h
    split at h
    · exact absurd h (by simp)
    · split at h
      · exact absurd h (by simp)
      · split at h
        · exact absurd h (by simp)
        · injection h with h
          subst h
          rfl
  constructor
  · intro us p row h
    rw [key us p row h]
    simp
  · intro us p row h hacc hid
    rw [key us p row h]
    simp [hacc]
    omega

/-- Claim C10 witness: the amended characterization at a concrete
answer row whose `AcceptedAnswerId` equals its own id. -/
theorem claim_C10_witness :
    answer_row [(1, "I")]
        { id := 7, postTypeId := some 2, ownerUserId := some 1, tags := none,
          score := none, body := none, acceptedAnswerId := some 7 }
      = some { features := none, answer_id := 7, owner_id := 1, shape := "I",
               upvotes := 0, accepted := true }
    ∧ (({ features := none, answer_id := 7, owner_id := 1, shape := "I",
          upvotes := 0, accepted := true } : AnswerRow).accepted = true ↔
        (({ id := 7, postTypeId := some 2, ownerUserId := some 1, tags := none,
            score := none, body := none,
            acceptedAnswerId := some 7 } : PostRow).acceptedAnswerId.getD 0 = 7))
    ∧ ({ features := none, answer_id := 5, owner_id := 1, shape := "I",
         upvotes := 0, accepted := false } : AnswerRow).accepted = false :=
  ⟨by decide, claim_C10.1 [(1, "I")] _ _ (by decide),
    claim_C10.2 [(1, "I")] post_no_body
      { features := none, answer_id := 5, owner_id := 1, shape := "I",
        upvotes := 0, accepted := false }
      (by decide) (by decide) (by decide)⟩

theorem bucket_of_char :
    ∀ w : ℕ, (bucket_of w = "Long" ↔ 400 < w)
      ∧ (bucket_of w = "Summarized" ↔ w < 150)
      ∧ (bucket_of w = "Medium" ↔ (150 ≤ w ∧ w ≤ 400)) := by
  intro w
  unfold bucket_of WORD_THRESHOLD_LONG WORD_THRESHOLD_SHORT
  split_ifs with h1 h2 <;> refine ⟨?_, ?_, ?_⟩ <;> simp <;> omega

theorem countWords_blocks (c : Char) (hc : isWordChar c = true) :
    ∀ n : ℕ, countWordsAux ((List.replicate n [c, ' ']).flatten) false = n := by
  have hsp : isWordChar ' ' = false := by decide
  intro n
  induction n with
  | zero => rfl
  | succ k ih =>
    rw [List.replicate_succ, List.flatten_cons]
    show countWordsAux (c :: ' ' :: (List.replicate k [c, ' ']).flatten) false = k + 1
    simp [countWordsAux, hc, hsp, ih]
    omega

/-- Claim C6: for every non-empty body, the length bucket is `Long` iff
`word_count > 400`, the short bucket (rendered `Summarized` by the
source) iff `word_count < 150`, and `Medium` otherwise, with strict
boundaries, so word counts of exactly 150 and exactly 400 fall in
`Medium`; a body of 500 word characters forming 500 words is bucketed
`Long`, and a body of exactly 150 words is bucketed `Medium`. -/
theorem claim_C6 :
    (∀ body f, answer_features body = some f →
      ((f.length = "Long" ↔ 400 < f.word_count)
        ∧ (f.length = "Summarized" ↔ f.word_count < 150)
        ∧ (f.length = "Medium" ↔ (150 ≤ f.word_count ∧ f.word_count ≤ 400))))
    ∧ word_count body_500 = 500
    ∧ (answer_features body_500).map (fun f => f.length) = some "Long"
    ∧ word_count body_150 = 150
    ∧ (answer_features body_150).map (fun f => f.length) = some "Medium"
    := by
  have h5 : word_count body_500 = 500 := countWords_blocks 'a' (by decide) 500
  have h1 : word_count body_150 = 150 := countWords_blocks 'b' (by decide) 150
  have hne5 : body_500 ≠ "" := by
    intro h
    rw [h] at h5
    exact absurd h5 (by decide)
  have hne1 : body_150 ≠ "" := by
    intro h
    rw [h] at h1
    exact absurd h1 (by decide)
  refine ⟨?_, h5, ?_, h1, ?_⟩
  · intro body f h
    unfold answer_features at h
    split at h
    · exact absurd h (by simp)
    · injection h with h
      subst h
      exact bucket_of_char (word_count body)
  · simp only [answer_features, if_neg hne5, Option.map_some']
    rw [h5]
    rfl
  · simp only [answer_features, if_neg hne1, Option.map_some']
    rw [h1]
    rfl

/-- Claim C6 witness: the bucket characterization at the concrete body
`"hi"`, a single word, bucketed in the short bucket. -/
theorem claim_C6_witness :
    answer_features "hi"
      = some { length := "Summarized", has_code := false, has_image := false,
               has_ref := false, word_count := 1 }
    ∧ ((({ length := "Summarized", has_code := false, has_image := false,
           has_ref := false, word_count := 1 } : Feats).length = "Long"
          ↔ 400 < ({ length := "Summarized", has_code := false, has_image := false,
                     has_ref := false, word_count := 1 } : Feats).word_count)
        ∧ (({ length := "Summarized", has_code := false, has_image := false,
              has_ref := false, word_count := 1 } : Feats).length = "Summarized"
          ↔ ({ length := "Summarized", has_code := false, has_image := false,
               has_ref := false, word_count := 1 } : Feats).word_count < 150)
        ∧ (({ length := "Summarized", has_code := false, has_image := false,
              has_ref := false, word_count := 1 } : Feats).length = "Medium"
          ↔ (150 ≤ ({ length := "Summarized", has_code := false, has_image := false,
                      has_ref := false, word_count := 1 } : Feats).word_count
              ∧ ({ length := "Summarized", has_code := false, has_image := false,
                   has_ref := false, word_count := 1 } : Feats).word_count ≤ 400))) :=
  ⟨by decide, claim_C6.1 "hi" _ (by decide)⟩

/-- Claim C8: `load_top_tags` returns the first `n` names of the stable
descending sort of the records: the output length is `min n (number of
records)`; the sorted list is a permutation of the records, is sorted by
usage count descending, and is stable (for every count value, the records
with that count appear in their original input order); the empty input
yields an empty allowlist. -/
theorem claim_C8 :
    ∀ (records : List (String × ℤ)) (n : ℕ),
      (load_top_tags records n).length = min n records.length
      ∧ load_top_tags records n
          = ((records.insertionSort byCountDesc).take n).map Prod.fst
      ∧ (records.insertionSort byCountDesc).Perm records
      ∧ (records.insertionSort byCountDesc).Sorted byCountDesc
      ∧ (∀ c : ℤ, (records.insertionSort byCountDesc).filter (fun x => x.2 == c)
          = records.filter (fun x => x.2 == c))
      ∧ load_top_tags [] n = [] := by
  intro records n
  refine ⟨?_, rfl, List.perm_insertionSort byCountDesc records,
    List.sorted_insertionSort byCountDesc records, ?_, by simp [load_top_tags]⟩
  · simp [load_top_tags, List.length_take, List.length_insertionSort]
  · intro c
    have hpw : (records.filter (fun x => x.2 == c)).Pairwise byCountDesc := by
      refine List.pairwise_of_forall_mem_list ?_
      intro a ha b hb
      have ha' := (List.mem_filter.mp ha).2
      have hb' := (List.mem_filter.mp hb).2
      have ha2 : a.2 = c := by simpa using ha'
      have hb2 : b.2 = c := by simpa using hb'
      show b.2 ≤ a.2
      rw [ha2, hb2]
    have hsub : List.Sublist (records.filter (fun x => x.2 == c))
        (records.insertionSort byCountDesc) :=
      List.sublist_insertionSort hpw (List.filter_sublist records)
    have hsub2 : List.Sublist (records.filter (fun x => x.2 == c))
        ((records.insertionSort byCountDesc).filter (fun x => x.2 == c)) := by
      have := hsub.filter (fun x => x.2 == c)
      simpa [List.filter_filter] using this
    have hlen : ((records.insertionSort byCountDesc).filter
        (fun x => x.2 == c)).length = (records.filter (fun x => x.2 == c)).length :=
      ((List.perm_insertionSort byCountDesc records).filter _).length_eq
    exact (hsub2.eq_of_length hlen.symm).symm

/-- Claim C8 witness: the characterization evaluated at a concrete record
list with a tie (records `a` and `c` both have count 3 and keep their
input order). -/
theorem claim_C8_witness :
    (load_top_tags [("a", 3), ("b", 7), ("c", 3)] 2).length
        = min 2 ([("a", 3), ("b", 7), ("c", 3)] : List (String × ℤ)).length
    ∧ (([("a", 3), ("b", 7), ("c", 3)] : List (String × ℤ)).insertionSort
          byCountDesc).filter (fun x => x.2 == 3)
        = ([("a", 3), ("b", 7), ("c", 3)] : List (String × ℤ)).filter
            (fun x => x.2 == 3) :=
  ⟨(claim_C8 [("a", 3), ("b", 7), ("c", 3)] 2).1,
    (claim_C8 [("a", 3), ("b", 7), ("c", 3)] 2).2.2.2.2.1 3⟩

theorem map_snd_nonneg_sum_pos {tc : TagCounter} (h0 : ∀ x ∈ tc, 0 ≤ x.2)
    {x : String × ℤ} (hx : x ∈ tc) (hxpos : 0 < x.2) :
    0 < (tc.map Prod.snd).sum := by
  have hmem : x.2 ∈ tc.map Prod.snd := List.mem_map_of_mem Prod.snd hx
  have hall : ∀ y ∈ tc.map Prod.snd, 0 ≤ y := by
    intro y hy
    obtain ⟨p, hp, rfl⟩ := List.mem_map.mp hy
    exact h0 p hp
  exact lt_of_lt_of_le hxpos (List.single_le_sum hall _ hmem)

/-- Claim C1: on every non-empty profile with non-negative gains that are
not all zero, `classify_shape` computes exactly the spec's priority rule
list evaluated on the descending-sorted share vector (`spec_rules` on
`shares_of`); an empty or all-zero profile is unclassified; and the
boundary instances: a share vector `[0.90]` classifies `I` while
`[0.89, 0.11]` does not, a top share of exactly 0.50 with 11 distinct
tags classifies `T` while the same top share with 10 tags does not, both
for the rules on the share vectors and for `classify_shape` on integer
profiles realizing those shares. -/
theorem claim_C1 :
    (∀ tc : TagCounter, tc ≠ [] → (∀ x ∈ tc, 0 ≤ x.2) → ¬ (∀ x ∈ tc, x.2 = 0) →
      classify_shape tc = spec_rules (shares_of tc))
    ∧ (∀ tc : TagCounter, (∀ x ∈ tc, x.2 = 0) → classify_shape tc = none)
    ∧ spec_rules [9/10] = some "I"
    ∧ spec_rules [89/100, 11/100] = none
    ∧ spec_rules [1/2, 1/20, 1/20, 1/20, 1/20, 1/20, 1/20, 1/20, 1/20, 1/20, 1/20]
        = some "T"
    ∧ spec_rules [1/2, 1/18, 1/18, 1/18, 1/18, 1/18, 1/18, 1/18, 1/18, 1/18] = none
    ∧ classify_shape [("a", 9), ("b", 1)] = some "I"
    ∧ classify_shape [("a", 89), ("b", 11)] = none
    ∧ classify_shape [("t", 50), ("a", 5), ("b", 5), ("c", 5), ("d", 5), ("e", 5),
        ("f", 5), ("g", 5), ("h", 5), ("i", 5), ("j", 5)] = some "T"
    ∧ classify_shape [("t", 50), ("a", 5), ("b", 5), ("c", 5), ("d", 5), ("e", 5),
        ("f", 5), ("g", 5), ("h", 5), ("i", 5)] = none := by
  refine ⟨?_, ?_, ?_, ?_, ?_, ?_, ?_, ?_, ?_, ?_⟩
  · intro tc hne h0 hnz
    push_neg at hnz
    obtain ⟨x, hx, hxne⟩ := hnz
    have hxpos : 0 < x.2 := lt_of_le_of_ne (h0 x hx) (Ne.symm hxne)
    have hsum : 0 < (tc.map Prod.snd).sum := map_snd_nonneg_sum_pos h0 hx hxpos
    have htot : ¬ ((tc.map Prod.snd).sum = 0) := ne_of_gt hsum
    simp only [classify_shape, spec_rules, shares_of, if_neg hne, if_neg htot,
      List.length_map]
  · intro tc hz
    by_cases hempty : tc = []
    · simp [classify_shape, hempty]
    · have hzero : (tc.map Prod.snd).sum = 0 := by
        apply List.sum_eq_zero
        intro y hy
        obtain ⟨p, hp, rfl⟩ := List.mem_map.mp hy
        exact hz p hp
      simp [classify_shape, hempty, hzero]
  · norm_num [spec_rules]
  · norm_num [spec_rules, List.countP, List.countP.go]
  · norm_num [spec_rules, List.countP, List.countP.go]
  · norm_num [spec_rules, List.countP, List.countP.go]
  · norm_num [classify_shape, List.insertionSort, List.orderedInsert, byCountDesc] <;>
      simp
  · norm_num [classify_shape, List.insertionSort, List.orderedInsert, byCountDesc,
      List.countP, List.countP.go] <;> simp
  · norm_num [classify_shape, List.insertionSort, List.orderedInsert, byCountDesc,
      List.countP, List.countP.go] <;> simp
  · norm_num [classify_shape, List.insertionSort, List.orderedInsert, byCountDesc,
      List.countP, List.countP.go] <;> simp

/-- Claim C1 witness: the refinement applied to the concrete profile
`[("a", 9), ("b", 1)]`, whose hypotheses (non-empty, non-negative, not
all zero) hold by computation. -/
theorem claim_C1_witness :
    (([("a", 9), ("b", 1)] : TagCounter) ≠ []
      ∧ (∀ x ∈ ([("a", 9), ("b", 1)] : TagCounter), 0 ≤ x.2)
      ∧ ¬ (∀ x ∈ ([("a", 9), ("b", 1)] : TagCounter), x.2 = 0))
    ∧ classify_shape [("a", 9), ("b", 1)] = spec_rules (shares_of [("a", 9), ("b", 1)]) :=
  ⟨⟨by decide, by decide, by decide⟩,
    claim_C1.1 [("a", 9), ("b", 1)] (by decide) (by decide) (by decide)⟩

theorem lookupRep_setRep : ∀ (m : List (ℤ × ℤ)) (u rep u' : ℤ),
    lookupRep (setRep m u rep) u' = if u' = u then some rep else lookupRep m u'
  | [], u, rep, u' => by
    by_cases h : u' = u
    · simp [setRep, lookupRep, h]
    · have h2 : ¬ (u = u') := fun hh => h hh.symm
      simp [setRep, lookupRep, h, h2]
  | (k, v) :: rest, u, rep, u' => by
    by_cases hk : k = u
    · by_cases h2 : u' = u
      · simp [setRep, lookupRep, hk, h2]
      · have h3 : ¬ (u = u') := fun hh => h2 hh.symm
        simp [setRep, lookupRep, hk, h2, h3]
    · by_cases h2 : u' = u
      · have h4 : ¬ (k = u') := by
          rw [h2]
          exact hk
        simp [setRep, lookupRep, hk, h2, h4, lookupRep_setRep rest u rep u]
      · simp [setRep, lookupRep, hk, h2, lookupRep_setRep rest u rep u']

theorem lookupRep_buildUserRep_ge (minRep : ℤ) :
    ∀ (users : List UserRow) (m : List (ℤ × ℤ)),
      (∀ uid r, lookupRep m uid = some r → minRep ≤ r) →
      ∀ uid r,
        lookupRep
          (users.foldl
            (fun m u => if minRep ≤ u.reputation then setRep m u.id u.reputation else m) m)
          uid = some r → minRep ≤ r
  | [], m, hm, uid, r => by
    intro h
    exact hm uid r h
  | u :: rest, m, hm, uid, r => by
    intro h
    rw [List.foldl_cons] at h
    refine lookupRep_buildUserRep_ge minRep rest _ ?_ uid r h
    intro uid' r' h'
    have h2 : lookupRep (if minRep ≤ u.reputation then setRep m u.id u.reputation else m)
        uid' = some r' := h'
    by_cases hc : minRep ≤ u.reputation
    · rw [if_pos hc, lookupRep_setRep] at h2
      by_cases he : uid' = u.id
      · rw [if_pos he] at h2
        injection h2 with h2
        exact h2 ▸ hc
      · rw [if_neg he] at h2
        exact hm uid' r' h2
    · rw [if_neg hc] at h2
      exact hm uid' r' h2

theorem lookupRep_buildUserRep_none (minRep : ℤ) :
    ∀ (users : List UserRow) (m : List (ℤ × ℤ)) (uid : ℤ),
      (∀ u ∈ users, u.id = uid → u.reputation < minRep) →
      lookupRep m uid = none →
      lookupRep
        (users.foldl
          (fun m u => if minRep ≤ u.reputation then setRep m u.id u.reputation else m) m)
        uid = none
  | [], m, uid, hu, hm => hm
  | u :: rest, m, uid, hu, hm => by
    rw [List.foldl_cons]
    refine lookupRep_buildUserRep_none minRep rest _ uid
      (fun v hv => hu v (List.mem_cons_of_mem u hv)) ?_
    show lookupRep (if minRep ≤ u.reputation then setRep m u.id u.reputation else m)
        uid = none
    by_cases hc : minRep ≤ u.reputation
    · rw [if_pos hc, lookupRep_setRep]
      have hne : ¬ (uid = u.id) := by
        intro hh
        have := hu u (List.mem_cons_self u rest) hh.symm
        omega
      rw [if_neg hne]
      exact hm
    · rw [if_neg hc]
      exact hm

theorem mem_userKeys_addGain : ∀ (st : UserTags) (uid : ℤ) (t : String) (g : ℤ) (k : ℤ),
    k ∈ userKeys (addGain st uid t g) → k ∈ userKeys st ∨ k = uid
  | [], uid, t, g, k => by
    simp [addGain, userKeys]
  | (k0, c0) :: rest, uid, t, g, k => by
    by_cases h : k0 = uid
    · simp only [addGain, userKeys, List.map_cons, List.mem_cons, if_pos h]
      tauto
    · simp only [addGain, userKeys, List.map_cons, List.mem_cons, if_neg h]
      intro hk
      rcases hk with rfl | hk
      · tauto
      · have := mem_userKeys_addGain rest uid t g k hk
        simp only [userKeys] at this
        tauto

theorem getCounter_addGain : ∀ (st : UserTags) (uid : ℤ) (t : String) (g : ℤ) (uid' : ℤ),
    getCounter (addGain st uid t g) uid'
      = if uid' = uid then counterAdd (getCounter st uid) t g else getCounter st uid'
  | [], uid, t, g, uid' => by
    by_cases h : uid' = uid
    · simp [addGain, getCounter, h]
    · have h2 : ¬ (uid = uid') := fun hh => h hh.symm
      simp [addGain, getCounter, h, h2]
  | (k0, c0) :: rest, uid, t, g, uid' => by
    by_cases hk : k0 = uid
    · by_cases h2 : uid' = uid
      · simp [addGain, getCounter, hk, h2]
      · have h3 : ¬ (uid = uid') := fun hh => h2 hh.symm
        simp [addGain, getCounter, hk, h2, h3]
    · by_cases h2 : uid' = uid
      · have h4 : ¬ (k0 = uid') := by
          rw [h2]
          exact hk
        simp [addGain, getCounter, hk, h2, h4, getCounter_addGain rest uid t g uid]
      · simp [addGain, getCounter, hk, h2, getCounter_addGain rest uid t g uid']

theorem counterGet_counterAdd : ∀ (c : TagCounter) (t : String) (g : ℤ) (t' : String),
    counterGet (counterAdd c t g) t'
      = if t' = t then counterGet c t + g else counterGet c t'
  | [], t, g, t' => by
    by_cases h : t' = t
    · simp [counterAdd, counterGet, h]
    · have h2 : ¬ (t = t') := fun hh => h hh.symm
      simp [counterAdd, counterGet, h, h2]
  | (k0, v0) :: rest, t, g, t' => by
    by_cases hk : k0 = t
    · by_cases h2 : t' = t
      · simp [counterAdd, counterGet, hk, h2]
      · have h3 : ¬ (t = t') := fun hh => h2 hh.symm
        simp [counterAdd, counterGet, hk, h2, h3]
    · by_cases h2 : t' = t
      · have h4 : ¬ (k0 = t') := by
          rw [h2]
          exact hk
        simp [counterAdd, counterGet, hk, h2, h4, counterGet_counterAdd rest t g t]
      · simp [counterAdd, counterGet, hk, h2, counterGet_counterAdd rest t g t']

theorem mem_counterKeys_counterAdd :
    ∀ (c : TagCounter) (t : String) (g : ℤ) (t' : String),
      t' ∈ counterKeys (counterAdd c t g) → t' ∈ counterKeys c ∨ t' = t
  | [], t, g, t' => by
    simp [counterAdd, counterKeys]
  | (k0, v0) :: rest, t, g, t' => by
    by_cases h : k0 = t
    · simp only [counterAdd, counterKeys, List.map_cons, List.mem_cons, if_pos h]
      tauto
    · simp only [counterAdd, counterKeys, List.map_cons, List.mem_cons, if_neg h]
      intro hk
      rcases hk with rfl | hk
      · tauto
      · have := mem_counterKeys_counterAdd rest t g t' hk
        simp only [counterKeys] at this
        tauto

theorem getGain_foldl_not_mem (uid : ℤ) (g : ℤ) :
    ∀ (S : List String) (st : UserTags) (t : String), t ∉ S →
      getGain (S.foldl (fun m x => addGain m uid x g) st) uid t = getGain st uid t
  | [], st, t, _ => rfl
  | a :: S', st, t, ht => by
    have hne : ¬ (t = a) := fun hh => ht (hh ▸ List.mem_cons_self a S')
    have ht' : t ∉ S' := fun hh => ht (List.mem_cons_of_mem a hh)
    rw [List.foldl_cons, getGain_foldl_not_mem uid g S' _ t ht']
    unfold getGain
    rw [getCounter_addGain, if_pos rfl, counterGet_counterAdd, if_neg hne]

theorem getGain_foldl_mem (uid : ℤ) (g : ℤ) :
    ∀ (S : List String) (st : UserTags) (t : String), S.Nodup → t ∈ S →
      getGain (S.foldl (fun m x => addGain m uid x g) st) uid t = getGain st uid t + g
  | [], st, t, _, hmem => absurd hmem (List.not_mem_nil t)
  | a :: S', st, t, hnd, hmem => by
    rw [List.foldl_cons]
    rcases List.mem_cons.mp hmem with rfl | hmem'
    · rw [getGain_foldl_not_mem uid g S' _ t (List.nodup_cons.mp hnd).1]
      unfold getGain
      rw [getCounter_addGain, if_pos rfl, counterGet_counterAdd, if_pos rfl]
    · have hne : ¬ (t = a) := by
        rintro rfl
        exact (List.nodup_cons.mp hnd).1 hmem'
      rw [getGain_foldl_mem uid g S' _ t (List.nodup_cons.mp hnd).2 hmem']
      congr 1
      unfold getGain
      rw [getCounter_addGain, if_pos rfl, counterGet_counterAdd, if_neg hne]

theorem profInv_foldl_tags {ur : List (ℤ × ℤ)} {allow : List String} (uid : ℤ) (g : ℤ) :
    ∀ (S : List String) (st : UserTags), profInv ur allow st →
      (lookupRep ur uid).isSome = true → (∀ t ∈ S, t ∈ allow) →
      profInv ur allow (S.foldl (fun m x => addGain m uid x g) st)
  | [], st, hst, _, _ => hst
  | a :: S', st, hst, huid, hS => by
    rw [List.foldl_cons]
    refine profInv_foldl_tags uid g S' _ ⟨?_, ?_⟩ huid
      (fun t ht => hS t (List.mem_cons_of_mem a ht))
    · intro k hk
      rcases mem_userKeys_addGain st uid a g k hk with h | rfl
      · exact hst.1 k h
      · exact huid
    · intro k t' ht'
      rw [getCounter_addGain] at ht'
      by_cases h : k = uid
      · rw [if_pos h] at ht'
        rcases mem_counterKeys_counterAdd (getCounter st uid) a g t' ht' with h2 | rfl
        · exact hst.2 uid t' h2
        · exact hS t' (List.mem_cons_self t' S')
      · rw [if_neg h] at ht'
        exact hst.2 k t' ht'

theorem profInv_processPost {ur : List (ℤ × ℤ)} {allow : List String}
    {st : UserTags} (p : PostRow) (h : profInv ur allow st) :
    profInv ur allow (processPost ur allow st p) := by
  unfold processPost
  cases howner : p.ownerUserId with
  | none => exact h
  | some uid =>
    dsimp only
    by_cases hrep : (lookupRep ur uid).isSome = true
    · rw [if_pos hrep]
      cases htags : p.tags with
      | none => exact h
      | some s =>
        dsimp only
        by_cases hs : s = ""
        · rw [if_pos hs]
          exact h
        · rw [if_neg hs]
          by_cases hempty : (extract_post_tags s).filter (fun t => decide (t ∈ allow)) = []
          · simp only [hempty, if_pos]
            exact h
          · simp only [if_neg hempty]
            refine profInv_foldl_tags uid _ _ st h hrep ?_
            intro t ht
            have := (List.mem_filter.mp ht).2
            exact of_decide_eq_true this
    · rw [if_neg hrep]
      exact h

theorem profInv_foldl_posts {ur : List (ℤ × ℤ)} {allow : List String} :
    ∀ (posts : List PostRow) (st : UserTags), profInv ur allow st →
      profInv ur allow (posts.foldl (processPost ur allow) st)
  | [], st, h => h
  | p :: rest, st, h => by
    rw [List.foldl_cons]
    exact profInv_foldl_posts rest _ (profInv_processPost p h)

theorem profInv_nil {ur : List (ℤ × ℤ)} {allow : List String} : profInv ur allow [] := by
  constructor
  · intro k hk
    simp [userKeys] at hk
  · intro k t ht
    simp [getCounter, counterKeys] at ht

/-- Claim C2: every user key of the built `TagReputationProfile` is
present in the `UserReputationIndex` with a stored reputation at least
`min_reputation`, and every tag key of any user's profile entry is in the
allowlist; a user whose only record has reputation 50 never appears when
`min_reputation` is 100 (the profile keys are empty for the single-user
stream `[(id 7, rep 50)]`, whatever the posts). -/
theorem claim_C2 :
    (∀ users posts allow (minRep : ℤ) uid,
      uid ∈ userKeys (build_tag_reputation users posts allow minRep).2 →
      ∃ r, lookupRep (build_tag_reputation users posts allow minRep).1 uid = some r
        ∧ minRep ≤ r)
    ∧ (∀ users posts allow (minRep : ℤ) uid t,
      t ∈ counterKeys
        (getCounter (build_tag_reputation users posts allow minRep).2 uid) →
      t ∈ allow)
    ∧ (∀ posts allow,
      userKeys (build_tag_reputation [⟨7, 50⟩] posts allow 100).2 = []) := by
  have hinv : ∀ users posts allow (minRep : ℤ),
      profInv (buildUserRep users minRep) allow
        (build_tag_reputation users posts allow minRep).2 := by
    intro users posts allow minRep
    exact profInv_foldl_posts posts [] profInv_nil
  refine ⟨?_, ?_, ?_⟩
  · intro users posts allow minRep uid hmem
    have hsome := (hinv users posts allow minRep).1 uid hmem
    obtain ⟨r, hr⟩ := Option.isSome_iff_exists.mp hsome
    refine ⟨r, hr, ?_⟩
    exact lookupRep_buildUserRep_ge minRep users []
      (by intro uid' r' h'; simp [lookupRep] at h') uid r hr
  · intro users posts allow minRep uid t hmem
    exact (hinv users posts allow minRep).2 uid t hmem
  · intro posts allow
    have hempty : buildUserRep [⟨7, 50⟩] 100 = [] := by decide
    rw [List.eq_nil_iff_forall_not_mem]
    intro uid hmem
    have hsome := (hinv [⟨7, 50⟩] posts allow 100).1 uid hmem
    rw [hempty] at hsome
    simp [lookupRep] at hsome

/-- Claim C2 witness: the invariant applied to a concrete run: one user of
reputation 150, one post by that user on the allow-listed tag `python`;
the user appears in the profile and the index stores reputation at least
100. -/
theorem claim_C2_witness :
    (1 ∈ userKeys (build_tag_reputation [⟨1, 150⟩] [post_python] ["python"] 100).2
      ∧ ∃ r, lookupRep (build_tag_reputation [⟨1, 150⟩] [post_python] ["python"] 100).1 1
          = some r ∧ (100 : ℤ) ≤ r)
    ∧ ("python" ∈ counterKeys
          (getCounter (build_tag_reputation [⟨1, 150⟩] [post_python] ["python"] 100).2 1)
        ∧ "python" ∈ ["python"]) :=
  ⟨⟨by decide,
      claim_C2.1 [⟨1, 150⟩] [post_python] ["python"] 100 1 (by decide)⟩,
    ⟨by decide,
      claim_C2.2.1 [⟨1, 150⟩] [post_python] ["python"] 100 1 "python" (by decide)⟩⟩

/-- Claim C3: for a post with an owner present in the reputation index and
a non-empty allow-listed tag intersection, processing the post adds
`max(score * 10, 0)` to the owner's counter once for every surviving tag
(the intersection being a set of distinct tags); a post with no owner, an
owner absent from the index (in particular one below the reputation floor,
which pass 1 never indexes), no tags, or no allow-listed tags leaves the
profile unchanged — and every case is total, so no error is raised. -/
theorem claim_C3 :
    (∀ ur allow st p uid s, p.ownerUserId = some uid →
      (lookupRep ur uid).isSome = true → p.tags = some s → s ≠ "" →
      (extract_post_tags s).filter (fun t => decide (t ∈ allow)) ≠ [] →
      ((extract_post_tags s).filter (fun t => decide (t ∈ allow))).Nodup →
      ∀ t ∈ (extract_post_tags s).filter (fun t => decide (t ∈ allow)),
        getGain (processPost ur allow st p) uid t
          = getGain st uid t + max ((p.score.getD 0) * 10) 0)
    ∧ (∀ ur allow st p, p.ownerUserId = none → processPost ur allow st p = st)
    ∧ (∀ ur allow st p uid, p.ownerUserId = some uid →
        (lookupRep ur uid).isSome = false → processPost ur allow st p = st)
    ∧ (∀ ur allow st p uid, p.ownerUserId = some uid →
        (p.tags = none ∨ p.tags = some "") → processPost ur allow st p = st)
    ∧ (∀ ur allow st p uid s, p.ownerUserId = some uid → p.tags = some s →
        (extract_post_tags s).filter (fun t => decide (t ∈ allow)) = [] →
        processPost ur allow st p = st)
    ∧ (∀ (users : List UserRow) (minRep : ℤ) (uid : ℤ),
        (∀ u ∈ users, u.id = uid → u.reputation < minRep) →
        lookupRep (buildUserRep users minRep) uid = none) := by
  refine ⟨?_, ?_, ?_, ?_, ?_, ?_⟩
  · intro ur allow st p uid s howner hrep htags hs hne hnd t ht
    unfold processPost
    rw [howner]
    dsimp only
    rw [if_pos hrep, htags]
    dsimp only
    rw [if_neg hs, if_neg hne]
    exact getGain_foldl_mem uid _ _ st t hnd ht
  · intro ur allow st p howner
    unfold processPost
    rw [howner]
  · intro ur allow st p uid howner hrep
    unfold processPost
    rw [howner]
    dsimp only
    rw [if_neg (by simp [hrep])]
  · intro ur allow st p uid howner htags
    unfold processPost
    rw [howner]
    dsimp only
    split
    · rcases htags with h | h
      · rw [h]
      · rw [h]
        dsimp only
        rw [if_pos rfl]
    · rfl
  · intro ur allow st p uid s howner htags hfil
    unfold processPost
    rw [howner]
    dsimp only
    split
    · rw [htags]
      dsimp only
      by_cases hs : s = ""
      · rw [if_pos hs]
      · rw [if_neg hs, if_pos hfil]
    · rfl
  · intro users minRep uid hu
    exact lookupRep_buildUserRep_none minRep users [] uid hu rfl

/-- Claim C3 witness: processing the concrete post `post_python` (owner 1,
score 3, tags `<python>`) under the index `[(1, 150)]` and the allowlist
`["python"]` adds `max(3 * 10, 0) = 30` to the owner's counter for the
surviving tag `python`. -/
theorem claim_C3_witness :
    post_python.ownerUserId = some 1
    ∧ (lookupRep [(1, 150)] 1).isSome = true
    ∧ post_python.tags = some "<python>"
    ∧ ("<python>" : String) ≠ ""
    ∧ (extract_post_tags "<python>").filter (fun t => decide (t ∈ ["python"])) ≠ []
    ∧ ((extract_post_tags "<python>").filter (fun t => decide (t ∈ ["python"]))).Nodup
    ∧ "python" ∈ (extract_post_tags "<python>").filter (fun t => decide (t ∈ ["python"]))
    ∧ getGain (processPost [(1, 150)] ["python"] [] post_python) 1 "python"
        = getGain [] 1 "python" + max ((post_python.score.getD 0) * 10) 0
    ∧ lookupRep (buildUserRep [⟨7, 50⟩] 100) 7 = none :=
  ⟨by decide, by decide, by decide, by decide, by decide, by decide, by decide,
    claim_C3.1 [(1, 150)] ["python"] [] post_python 1 "<python>" (by decide) (by decide)
      (by decide) (by decide) (by decide) (by decide) "python" (by decide),
    claim_C3.2.2.2.2.2 [⟨7, 50⟩] 100 7 (by decide)⟩
